import Mathlib

/-
Verification of the real-time segmentation and resilient streaming-orchestration
engine of the Hotel-Kiosk voice-assistant pipeline.

Each definition below is a shallow embedding of one Python source function:
  CircuitBreaker              <- src/adapters/utils/resilience.py
  executeWithFallback         <- src/app/domain/services/command_bus.py
  executeStreamWithFallback   <- src/app/domain/services/command_bus.py
  executeCommand              <- src/app/domain/services/command_bus.py
  VADFilter (vadStep/vadRun)  <- src/adapters/input/mic_listener/vad_filter.py
  capStep/capRun              <- src/adapters/input/mic_listener_adapter.py
  processAudio                <- src/app/domain/services/assistant_service.py
  streamDistributor/queueGen  <- src/app/domain/services/assistant_service.py

Wall-clock time is passed explicitly (the Python code reads time.time());
external classifiers, providers and tools appear as inputs/parameters.
-/

namespace HotelKiosk

/-! ## Circuit breaker (src/adapters/utils/resilience.py, class CircuitBreaker) -/

/-- The three states of `CircuitState` in resilience.py. -/
inductive CircuitState
  | closed
  | opened
  | halfOpen
deriving DecidableEq, Repr

/-- Mutable fields of the Python `CircuitBreaker` object, plus its two
configuration parameters.  `lastFailureTime` mirrors `last_failure_time`
(`None` initially); time is an integer stand-in for `time.time()`. -/
structure CircuitBreaker where
  failureThreshold : Nat
  recoveryTimeoutS : Nat
  failureCount : Nat
  lastFailureTime : Option Int
  state : CircuitState
deriving DecidableEq, Repr

/-- `CircuitBreaker.__init__` with the source defaults (3 failures, 30 s). -/
def CircuitBreaker.make (failureThreshold : Nat := 3) (recoveryTimeoutS : Nat := 30) :
    CircuitBreaker :=
  { failureThreshold := failureThreshold
    recoveryTimeoutS := recoveryTimeoutS
    failureCount := 0
    lastFailureTime := none
    state := CircuitState.closed }

/-- `CircuitBreaker.is_open` (resilience.py lines 59-80).  Returns the boolean
result together with the updated object, since the method transitions
OPEN to HALF_OPEN (resetting the failure counter) once
`now - last_failure_time > recovery_timeout_s`. -/
def CircuitBreaker.isOpen (cb : CircuitBreaker) (now : Int) : Bool × CircuitBreaker :=
  match cb.state with
  | CircuitState.opened =>
    match cb.lastFailureTime with
    | some t =>
      if now - t > (cb.recoveryTimeoutS : Int) then
        (false, { cb with state := CircuitState.halfOpen, failureCount := 0 })
      else
        (true, cb)
    | none => (true, cb)
  | _ => (false, cb)

/-- `CircuitBreaker.record_failure` (resilience.py lines 82-93): increment the
counter, stamp the failure time, and open the circuit once the counter
reaches the threshold. -/
def CircuitBreaker.recordFailure (cb : CircuitBreaker) (now : Int) : CircuitBreaker :=
  let cb2 := { cb with failureCount := cb.failureCount + 1, lastFailureTime := some now }
  if cb2.failureCount ≥ cb2.failureThreshold then
    { cb2 with state := CircuitState.opened }
  else
    cb2

/-- `CircuitBreaker.record_success` (resilience.py lines 95-105): reset the
counter and close the circuit. -/
def CircuitBreaker.recordSuccess (cb : CircuitBreaker) : CircuitBreaker :=
  { cb with failureCount := 0, state := CircuitState.closed }

/-! ## Provider-chain failover (src/app/domain/services/command_bus.py) -/

/-- Loop body of `CommandBus._execute_with_fallback`: each element of the
chain is the outcome of calling `operation(adapter)` on that adapter; `errs`
accumulates the caught exceptions in chain order, exactly as the Python
`errors` list does. -/
def executeWithFallbackAux {ε ρ : Type} : List (Except ε ρ) → List ε → Except (List ε) ρ
  | [], errs => Except.error errs
  | r :: rest, errs =>
    match r with
    | Except.ok v => Except.ok v
    | Except.error e => executeWithFallbackAux rest (errs ++ [e])

/-- `CommandBus._execute_with_fallback` (command_bus.py lines 62-76): return
the first adapter's successful result, else raise an aggregated error
carrying every adapter's exception in chain order. -/
def executeWithFallback {ε ρ : Type} (chain : List (Except ε ρ)) : Except (List ε) ρ :=
  executeWithFallbackAux chain []

/-- One attempt of a streaming adapter: the items it yields before either
finishing cleanly (`failure = none`) or raising (`failure = some e`).
An adapter whose call raises before yielding anything is `⟨[], some e⟩`. -/
structure StreamAttempt (ε ι : Type) where
  yielded : List ι
  failure : Option ε
deriving DecidableEq, Repr

/-- Loop body of `CommandBus._execute_stream_with_fallback`: items from every
attempt are yielded downstream (`acc`), a clean finish breaks out of the loop,
and the for-else raises the aggregated error list when no attempt finished. -/
def executeStreamWithFallbackAux {ε ι : Type} :
    List (StreamAttempt ε ι) → List ε → List ι → List ι × Option (List ε)
  | [], errs, acc => (acc, some errs)
  | a :: rest, errs, acc =>
    match a.failure with
    | none => (acc ++ a.yielded, none)
    | some e => executeStreamWithFallbackAux rest (errs ++ [e]) (acc ++ a.yielded)

/-- `CommandBus._execute_stream_with_fallback` (command_bus.py lines 78-103):
the yielded item sequence plus `some errors` when the whole chain failed. -/
def executeStreamWithFallback {ε ι : Type} (chain : List (StreamAttempt ε ι)) :
    List ι × Option (List ε) :=
  executeStreamWithFallbackAux chain [] []

/-! ## Command dispatch (src/app/domain/services/command_bus.py lines 38-56) -/

/-- The dynamic type of a command object reaching `CommandBus.execute_command`:
the five dataclasses of app/domain/commands.py registered in `self._handlers`,
or any other Python type (carried by its rendered type name). -/
inductive Command
  | generateLLMStream
  | searchKnowledge
  | synthesizeTTS
  | saveBooking
  | logInteraction
  | unregistered (typeName : String)
deriving DecidableEq, Repr

/-- Rendering of `type(command)` used in the ValueError message. -/
def Command.typeName : Command → String
  | Command.generateLLMStream => "GenerateLLMStreamCommand"
  | Command.searchKnowledge => "SearchKnowledgeQuery"
  | Command.synthesizeTTS => "SynthesizeTTSCommand"
  | Command.saveBooking => "SaveBookingCommand"
  | Command.logInteraction => "LogInteractionCommand"
  | Command.unregistered n => n

/-- Bus-owned mutable state, abstracted as the ordered log of handler
invocations performed so far (each handler call appends its command). -/
structure BusState where
  invocations : List Command
deriving DecidableEq, Repr

/-- `CommandBus.execute_command` (command_bus.py lines 46-56): look the
command's type up in `self._handlers`; with no handler registered, raise
`ValueError(f"No handler registered for command: ...")` without invoking
anything; otherwise invoke the matching handler (logged into the state). -/
def executeCommand (st : BusState) (c : Command) : Except String Unit × BusState :=
  match c with
  | Command.unregistered _ =>
    (Except.error ("No handler registered for command: " ++ c.typeName), st)
  | _ => (Except.ok (), { invocations := st.invocations ++ [c] })

/-! ## Python string primitives used by the assistant service -/

/-- Characters Python's `str.split()` / `str.strip()` treat as whitespace. -/
def isPyWhitespace (c : Char) : Bool :=
  c == ' ' || c == '\t' || c == '\n' || c == '\r' || c == '\x0b' || c == '\x0c'

/-- Worker for `pySplit`: walk the characters, collecting the current word in
reverse in `cur`, emitting it at each whitespace run boundary. -/
def pySplitAux : List Char → List Char → List String
  | [], cur => if cur.isEmpty then [] else [String.mk cur.reverse]
  | c :: rest, cur =>
    if isPyWhitespace c then
      if cur.isEmpty then pySplitAux rest [] else String.mk cur.reverse :: pySplitAux rest []
    else
      pySplitAux rest (c :: cur)

/-- Python `s.split()` with no separator: split on whitespace runs, dropping
empty words. -/
def pySplit (s : String) : List String :=
  pySplitAux s.data []

/-- `len(s.split())`, the word count used by the tiering heuristic
(assistant_service.py line 132). -/
def wordCount (s : String) : Nat :=
  (pySplit s).length

/-- Python `s.strip()`: remove leading and trailing whitespace. -/
def pyStrip (s : String) : String :=
  String.mk (((s.data.dropWhile isPyWhitespace).reverse.dropWhile isPyWhitespace).reverse)

/-! ## Assistant pipeline (src/app/domain/services/assistant_service.py) -/

/-- Observable actions of one `process_audio` turn, in program order. -/
inductive PAEvent
  | userAppend (text : String)
  | genCommand (withTools : Bool)
  | ttsCommand (texts : List String)
  | streamOut (text : String)
  | assistantAppend (text : String)
  | logInteraction (userText intent responseText : String)
deriving DecidableEq, Repr

/-- The sentinel prefixing a tool-call chunk in the LLM stream
(assistant_service.py line 235). -/
def fcMarker : String := "__FUNCTION_CALL__:"

/-- One chunk of `AssistantService._process_llm_stream` (lines 234-258): a
chunk starting with the sentinel is routed through the tool dispatcher,
any other chunk passes through unchanged.  `toolResult` stands for
`_execute_tool` composed with `json.loads` together with the except-branch
apology text, i.e. the text the turn emits for the given payload. -/
def processOneChunk (toolResult : String → String) (chunk : String) : String :=
  if chunk.startsWith fcMarker then toolResult (chunk.replace fcMarker "") else chunk

/-- Post-loop events of `_process_llm_stream` (lines 260-270): the assistant
message holding the complete text is appended when that text is non-empty and
a conversation is set; a log command is then fired whenever the text is
non-empty. -/
def llmStreamTail (hasConv : Bool) (userText intent complete : String) : List PAEvent :=
  (if complete ≠ "" ∧ hasConv then [PAEvent.assistantAppend complete] else [])
    ++ (if complete ≠ "" then [PAEvent.logInteraction userText intent complete] else [])

/-- Events of `AssistantService._process_llm_stream` (lines 226-270) once the
generator is fully drained: every processed chunk is yielded in order, then
the history/log tail runs, with intent FUNCTION_CALL when a tool chunk was
seen anywhere in the stream. -/
def processLLMStream (toolResult : String → String) (hasConv : Bool) (userText : String)
    (chunks : List String) : List PAEvent :=
  ((chunks.map (processOneChunk toolResult)).map PAEvent.streamOut)
    ++ llmStreamTail hasConv userText
        (if chunks.any (fun c => c.startsWith fcMarker) then "FUNCTION_CALL" else "INFO")
        (String.join (chunks.map (processOneChunk toolResult)))

/-- Environment of one `process_audio` turn: whether `self.conversation` is
set, the final transcript produced by the proactive pipeline, the fully
drained OMEGA-1 stream chunks, the OMEGA-2 stream chunks, and the tool
dispatcher. -/
structure PAEnv where
  hasConv : Bool
  finalText : String
  quickChunks : List String
  fullChunks : List String
  toolResult : String → String

/-- Result of one turn: the text returned to the caller, the text units fed
to speech synthesis for the returned audio stream, and the event trace. -/
structure PAResult where
  returnedText : String
  ttsTexts : List String
  events : List PAEvent

/-- The fixed fallback utterance of assistant_service.py line 95. -/
def fallbackText : String := "¿Hola? No te escuché."

/-- Empty-transcript branch of `process_audio` (lines 94-96): return the
fixed fallback text and synthesize it; nothing else happens. -/
def processAudioFallback : PAResult :=
  { returnedText := fallbackText
    ttsTexts := [fallbackText]
    events := [PAEvent.ttsCommand [fallbackText]] }

/-- History update of lines 102-103: the user message is appended only when a
conversation object is set. -/
def userEvents (env : PAEnv) : List PAEvent :=
  if env.hasConv then [PAEvent.userAppend env.finalText] else []

/-- Fast path of `process_audio` (lines 135-137): the OMEGA-1 command was
issued and drained, its text accepted and sent to the quick TTS helper. -/
def processAudioFast (env : PAEnv) : PAResult :=
  { returnedText := env.finalText
    ttsTexts := [String.join env.quickChunks]
    events := userEvents env
      ++ [PAEvent.genCommand false, PAEvent.ttsCommand [String.join env.quickChunks]] }

/-- Escalated path of `process_audio` (lines 139-168): after the drained
OMEGA-1 attempt, the tool-enabled OMEGA-2 command is issued, its stream is
routed through `_process_llm_stream`, and the processed stream is synthesized. -/
def processAudioEscalated (env : PAEnv) : PAResult :=
  { returnedText := env.finalText
    ttsTexts := env.fullChunks.map (processOneChunk env.toolResult)
    events := userEvents env
      ++ [PAEvent.genCommand false, PAEvent.genCommand true,
          PAEvent.ttsCommand (env.fullChunks.map (processOneChunk env.toolResult))]
      ++ processLLMStream env.toolResult env.hasConv env.finalText env.fullChunks }

/-- `AssistantService.process_audio` (lines 68-168), one fully drained turn:
an empty-after-strip transcript short-circuits with the fixed fallback;
otherwise OMEGA-1 is drained and its word count decides between the fast
path (1 to 25 words) and escalation to OMEGA-2. -/
def processAudio (env : PAEnv) : PAResult :=
  if pyStrip env.finalText = "" then
    processAudioFallback
  else if 0 < wordCount (String.join env.quickChunks) ∧
          wordCount (String.join env.quickChunks) ≤ 25 then
    processAudioFast env
  else
    processAudioEscalated env

/-- Boolean discriminators over trace events, used to state ordering facts. -/
def PAEvent.isUser : PAEvent → Bool
  | PAEvent.userAppend _ => true
  | _ => false

/-- True exactly on generation commands (either tier). -/
def PAEvent.isGen : PAEvent → Bool
  | PAEvent.genCommand _ => true
  | _ => false

/-- True exactly on response-stream output events. -/
def PAEvent.isOut : PAEvent → Bool
  | PAEvent.streamOut _ => true
  | _ => false

/-- True exactly on assistant-history appends. -/
def PAEvent.isAsst : PAEvent → Bool
  | PAEvent.assistantAppend _ => true
  | _ => false

/-- Every event satisfying `p` occurs strictly before every event
satisfying `q` in the trace `l`. -/
def eventsOrdered (p q : PAEvent → Bool) (l : List PAEvent) : Prop :=
  ∀ i j, ∀ hi : i < l.length, ∀ hj : j < l.length,
    p (l.get ⟨i, hi⟩) = true → q (l.get ⟨j, hj⟩) = true → i < j

/-! ## Stream fan-out (assistant_service.py lines 170-188) -/

/-- `AssistantService._stream_distributor`: forward every source chunk to the
transcription queue and to the affect queue in order, then put the `None`
end-of-stream marker on both.  Each component is one queue's content. -/
def streamDistributor {α : Type} (chunks : List α) : List (Option α) × List (Option α) :=
  (chunks.map some ++ [none], chunks.map some ++ [none])

/-- `AssistantService._queue_gen`: drain a queue, yielding items until the
`None` marker is taken. -/
def queueGen {α : Type} : List (Option α) → List α
  | [] => []
  | none :: _ => []
  | some x :: rest => x :: queueGen rest

/-! ## Voice-activity filter (src/adapters/input/mic_listener/vad_filter.py) -/

/-- Mutable state of `VADFilter`: the `speech_frames` deque (bounded by
`min_speech_frames`), the internal `silence_frames` counter, and the
`speech_detected` flag. -/
structure VADState where
  speechFrames : List Bool
  silenceFrames : Nat
  speechDetected : Bool
deriving DecidableEq, Repr

/-- State set up by `VADFilter.__init__` (lines 54-58). -/
def VADState.init : VADState :=
  { speechFrames := [], silenceFrames := 0, speechDetected := false }

/-- `collections.deque(maxlen=m).append(x)`: append on the right, discarding
from the left when the bound is exceeded. -/
def dequeAppend (maxlen : Nat) (l : List Bool) (x : Bool) : List Bool :=
  let l2 := l ++ [x]
  if maxlen < l2.length then l2.drop (l2.length - maxlen) else l2

/-- State update of `VADFilter.is_speech` (lines 97-107) for one frame whose
classification outcome is `classified` (the WebRTC classifier itself is
external): a speech frame appends `True`, zeroes the silence counter and sets
`speech_detected` once `len(self.speech_frames) == self.min_speech_frames`;
a silence frame appends `False` and increments the silence counter. -/
def vadStep (minSpeech : Nat) (s : VADState) (classified : Bool) : VADState :=
  if classified then
    let sf := dequeAppend minSpeech s.speechFrames true
    { speechFrames := sf
      silenceFrames := 0
      speechDetected := if sf.length = minSpeech then true else s.speechDetected }
  else
    { speechFrames := dequeAppend minSpeech s.speechFrames false
      silenceFrames := s.silenceFrames + 1
      speechDetected := s.speechDetected }

/-- Feeding a whole classified-frame sequence through `is_speech` from the
freshly initialised filter. -/
def vadRun (minSpeech : Nat) (frames : List Bool) : VADState :=
  frames.foldl (vadStep minSpeech) VADState.init

/-- `VADFilter.is_silence_timeout` (lines 115-128): false until speech has
been detected, then true once `silence_frames > max_silence_frames`. -/
def isSilenceTimeout (s : VADState) (maxSilence : Nat) : Bool :=
  if s.speechDetected then decide (maxSilence < s.silenceFrames) else false

/-! ## Capture loop (src/adapters/input/mic_listener_adapter.py lines 102-160) -/

/-- State of `MicListenerAdapter._capture_loop`: the VAD filter plus the
loop-local `silence_frames` counter compared against `max_silence_frames`. -/
structure CapState where
  vad : VADState
  silenceFrames : Nat
deriving DecidableEq, Repr

/-- Loop entry state: fresh VAD filter, local counter at zero. -/
def CapState.init : CapState :=
  { vad := VADState.init, silenceFrames := 0 }

/-- The loop-local `silence_frames` value after one iteration, before the
timeout test (mic_listener_adapter.py lines 130-145): a speech frame resets
it to zero, a silence frame increments it only when `self.vad.speech_detected`
holds after the `is_speech` call (`v` is the updated VAD state). -/
def capSilenceCount (s : CapState) (v : VADState) (classified : Bool) : Nat :=
  if classified then 0
  else if v.speechDetected then s.silenceFrames + 1 else s.silenceFrames

/-- One iteration of `_capture_loop` on a frame classified as `classified`:
run the VAD update, recompute the local silence counter, and when the counter
exceeds `max_silence_frames` fire the end-of-speech callback (the returned
flag) and reset both the VAD filter and the counter (lines 147-157). -/
def capStep (minSpeech maxSilence : Nat) (s : CapState) (classified : Bool) :
    CapState × Bool :=
  if maxSilence < capSilenceCount s (vadStep minSpeech s.vad classified) classified then
    (CapState.init, true)
  else
    ({ vad := vadStep minSpeech s.vad classified
       silenceFrames := capSilenceCount s (vadStep minSpeech s.vad classified) classified },
      false)

/-- The capture loop from an arbitrary state, returning the final state and
the close-callback flag of every iteration, in frame order. -/
def capRunSt (minSpeech maxSilence : Nat) : CapState → List Bool → CapState × List Bool
  | s, [] => (s, [])
  | s, f :: rest =>
    ((capRunSt minSpeech maxSilence (capStep minSpeech maxSilence s f).1 rest).1,
      (capStep minSpeech maxSilence s f).2
        :: (capRunSt minSpeech maxSilence (capStep minSpeech maxSilence s f).1 rest).2)

/-- The capture loop from its entry state. -/
def capRun (minSpeech maxSilence : Nat) (frames : List Bool) : CapState × List Bool :=
  capRunSt minSpeech maxSilence CapState.init frames

/-- The breaker after `failure_threshold = 3` consecutive failures recorded
at time 0, with the source defaults. -/
def cbAfterThreeFailures : CircuitBreaker :=
  CircuitBreaker.recordFailure
    (CircuitBreaker.recordFailure
      (CircuitBreaker.recordFailure (CircuitBreaker.make 3 30) 0) 0) 0

/-- The breaker after the probe call at time 31 flipped it to HALF_OPEN. -/
def cbProbe : CircuitBreaker :=
  (CircuitBreaker.isOpen cbAfterThreeFailures 31).2

/-! ## Concrete turn environments used to instantiate the theorems -/

/-- A tool dispatcher that answers every payload with the empty string. -/
def noTool : String → String := fun _ => ""

/-- A short turn: greeting transcript, one-word OMEGA-1 answer. -/
def envShortTurn : PAEnv :=
  { hasConv := true, finalText := "hola", quickChunks := ["Hola"], fullChunks := []
    toolResult := noTool }

/-- A turn whose transcript is whitespace only. -/
def envSilentTurn : PAEnv :=
  { hasConv := true, finalText := "   ", quickChunks := ["Hola"], fullChunks := ["x"]
    toolResult := noTool }

/-- A fast-path turn used to exhibit the missing assistant append. -/
def envFastTurn : PAEnv :=
  { hasConv := true, finalText := "hola", quickChunks := ["Buenas tardes."], fullChunks := []
    toolResult := noTool }

/-- An escalated turn: empty OMEGA-1 result, two-chunk OMEGA-2 answer. -/
def envEscalatedTurn : PAEnv :=
  { hasConv := true, finalText := "quiero reservar una mesa", quickChunks := []
    fullChunks := ["Claro. ", "Reservado."], toolResult := noTool }

/-! ## General helper lemmas -/

theorem executeWithFallbackAux_allFail {ε ρ : Type} (es : List ε) (errs : List ε) :
    (executeWithFallbackAux (es.map Except.error) errs : Except (List ε) ρ)
      = Except.error (errs ++ es) := by
  induction es generalizing errs with
  | nil => simp [executeWithFallbackAux]
  | cons e t ih => simp [executeWithFallbackAux, ih]

theorem executeWithFallbackAux_firstOk {ε ρ : Type} (es : List ε) (v : ρ) (errs : List ε) :
    executeWithFallbackAux (es.map Except.error ++ [Except.ok v]) errs = Except.ok v := by
  induction es generalizing errs with
  | nil => simp [executeWithFallbackAux]
  | cons e t ih => simp [executeWithFallbackAux, ih]

theorem executeStreamWithFallbackAux_allFail {ε ι : Type} (es errs : List ε) (acc : List ι) :
    executeStreamWithFallbackAux
        (es.map fun e => ({ yielded := [], failure := some e } : StreamAttempt ε ι)) errs acc
      = (acc, some (errs ++ es)) := by
  induction es generalizing errs with
  | nil => simp [executeStreamWithFallbackAux]
  | cons e t ih => simp [executeStreamWithFallbackAux, ih]

theorem executeStreamWithFallbackAux_firstOk {ε ι : Type} (es : List ε) (items : List ι)
    (errs : List ε) (acc : List ι) :
    executeStreamWithFallbackAux
        ((es.map fun e => ({ yielded := [], failure := some e } : StreamAttempt ε ι))
          ++ [{ yielded := items, failure := none }]) errs acc
      = (acc ++ items, none) := by
  induction es generalizing errs with
  | nil => simp [executeStreamWithFallbackAux]
  | cons e t ih => simp [executeStreamWithFallbackAux, ih]

theorem queueGen_someAll {α : Type} (chunks : List α) :
    queueGen (chunks.map some ++ [none]) = chunks := by
  induction chunks with
  | nil => rfl
  | cons x t ih => simp [queueGen, ih]

theorem countNone_someAll {α : Type} (chunks : List α) :
    (chunks.map some ++ [none]).countP Option.isNone = 1 := by
  induction chunks with
  | nil => rfl
  | cons x t ih => simp [List.countP_cons, ih]

/-! ## Claim theorems -/

/-- C1: the circuit-breaker state machine diverges from the claim in
HALF_OPEN.  The true facets hold on this trace — after `failure_threshold = 3`
consecutive failures the state is OPEN, `is_open` keeps returning True until
`recovery_timeout_s = 30` has elapsed since the last failure, the first call
after the timeout flips the state to HALF_OPEN and passes, and a HALF_OPEN
success closes the breaker — but a failure recorded in HALF_OPEN leaves the
state HALF_OPEN (the transition reset the counter, so 1 < 3), and `is_open`
then still answers False, letting further calls through instead of exactly
one. -/
theorem circuitBreakerHalfOpenDivergence :
    cbAfterThreeFailures.state = CircuitState.opened
    ∧ (CircuitBreaker.isOpen cbAfterThreeFailures 10).1 = true
    ∧ (CircuitBreaker.isOpen cbAfterThreeFailures 30).1 = true
    ∧ (CircuitBreaker.isOpen cbAfterThreeFailures 31).1 = false
    ∧ cbProbe.state = CircuitState.halfOpen
    ∧ (CircuitBreaker.recordSuccess cbProbe).state = CircuitState.closed
    ∧ (CircuitBreaker.recordFailure cbProbe 31).state = CircuitState.halfOpen
    ∧ (CircuitBreaker.isOpen (CircuitBreaker.recordFailure cbProbe 31) 31).1 = false := by
  decide

/-- C2: provider-chain failover.  When every provider before the last fails
and the last succeeds, both the one-shot and the streaming fallback produce
exactly the last provider's result with no aggregated failure; when every
provider fails, both raise the aggregated error listing each provider's
exception in chain order (one entry per provider). -/
theorem providerChainFailover {ε ρ ι : Type} (es : List ε) (v : ρ) (items : List ι) :
    executeWithFallback (es.map Except.error ++ [Except.ok v]) = Except.ok v
    ∧ executeWithFallback (es.map fun e => (Except.error e : Except ε ρ)) = Except.error es
    ∧ executeStreamWithFallback
        ((es.map fun e => ({ yielded := [], failure := some e } : StreamAttempt ε ι))
          ++ [{ yielded := items, failure := none }]) = (items, none)
    ∧ executeStreamWithFallback
        (es.map fun e => ({ yielded := [], failure := some e } : StreamAttempt ε ι))
      = ([], some es) := by
  refine ⟨?_, ?_, ?_, ?_⟩
  · simpa using executeWithFallbackAux_firstOk es v []
  · simpa using executeWithFallbackAux_allFail es []
  · simpa using executeStreamWithFallbackAux_firstOk es items [] []
  · simpa using executeStreamWithFallbackAux_allFail es [] ([] : List ι)

/-- C10: a command of a type outside the five registered handlers makes
`execute_command` raise a ValueError naming the command type, while the bus
state is returned unchanged and no handler runs (nothing is added to the
invocation log). -/
theorem unregisteredCommandRejected (st : BusState) (n : String) :
    executeCommand st (Command.unregistered n)
      = (Except.error ("No handler registered for command: " ++ n), st) := by
  rfl

/-- C7: stream fan-out.  Both the transcription branch and the affect branch
of the distributor carry exactly the source chunks in source order, and each
branch holds exactly one end-of-stream marker, placed after the last chunk. -/
theorem streamFanoutCorrect {α : Type} (chunks : List α) :
    queueGen (streamDistributor chunks).1 = chunks
    ∧ queueGen (streamDistributor chunks).2 = chunks
    ∧ (streamDistributor chunks).1.countP Option.isNone = 1
    ∧ (streamDistributor chunks).2.countP Option.isNone = 1
    ∧ (streamDistributor chunks).1.getLast? = some none
    ∧ (streamDistributor chunks).2.getLast? = some none := by
  refine ⟨queueGen_someAll chunks, queueGen_someAll chunks,
    countNone_someAll chunks, countNone_someAll chunks, ?_, ?_⟩
  · simp [streamDistributor, List.getLast?_concat]
  · simp [streamDistributor, List.getLast?_concat]

/-- C4: the arming condition of `VADFilter.is_speech` tests only the length
of the `speech_frames` deque, which silence frames also fill.  With
`min_speech_frames = 2`, a silence frame followed by a single speech frame
already sets `speech_detected`, although no run of 2 consecutive
speech-classified frames ever occurred — while a lone speech frame does not
arm it.  This contradicts the claimed (and documented) consecutive-run
threshold. -/
theorem vadArmingCountsAllFrames :
    (vadRun 2 [false, true]).speechDetected = true
    ∧ (vadRun 2 [true]).speechDetected = false := by
  decide

theorem vadStep_silence_speechDetected (ms : Nat) (v : VADState) :
    (vadStep ms v false).speechDetected = v.speechDetected := by
  simp [vadStep]

theorem vadFold_undetected (ms : Nat) : ∀ (l : List Bool) (v : VADState), true ∉ l →
    v.speechDetected = false → (l.foldl (vadStep ms) v).speechDetected = false := by
  intro l
  induction l with
  | nil => intro v _ h; exact h
  | cons f t ih =>
    intro v hl h
    have hf : f = false := by
      cases f
      · rfl
      · exact absurd (List.mem_cons_self true t) hl
    subst hf
    exact ih _ (fun hm => hl (List.mem_cons_of_mem _ hm)) (by simp [vadStep, h])

theorem capStep_silence_le (ms mx : Nat) (s : CapState) (f : Bool) :
    ((capStep ms mx s f).1).silenceFrames ≤ mx := by
  unfold capStep
  split
  · exact Nat.zero_le mx
  · next h => exact Nat.le_of_not_lt h

theorem capRunSt_silence_le (ms mx : Nat) : ∀ (l : List Bool) (s : CapState),
    s.silenceFrames ≤ mx → ((capRunSt ms mx s l).1).silenceFrames ≤ mx := by
  intro l
  induction l with
  | nil => intro s h; exact h
  | cons f t ih => intro s _; exact ih _ (capStep_silence_le ms mx s f)

theorem capStep_close (ms mx : Nat) (s : CapState) (f : Bool)
    (hle : s.silenceFrames ≤ mx) (h : (capStep ms mx s f).2 = true) :
    f = false ∧ s.vad.speechDetected = true := by
  cases f with
  | true =>
    simp [capStep, capSilenceCount, Nat.not_lt_zero] at h
  | false =>
    cases hd : s.vad.speechDetected with
    | true => exact ⟨rfl, rfl⟩
    | false =>
      have hsd : (vadStep ms s.vad false).speechDetected = false := by
        simp [vadStep, hd]
      simp [capStep, capSilenceCount, hsd, Nat.not_lt.mpr hle] at h

theorem capStep_silence_keep (ms mx : Nat) (s : CapState)
    (hd : s.vad.speechDetected = false) :
    (((capStep ms mx s false).1).vad).speechDetected = false := by
  unfold capStep
  split
  · simp [CapState.init, VADState.init]
  · simp [vadStep, hd]

theorem capRunSt_keep_undetected (ms mx : Nat) : ∀ (l : List Bool), true ∉ l →
    ∀ s : CapState, s.vad.speechDetected = false →
      (((capRunSt ms mx s l).1).vad).speechDetected = false := by
  intro l
  induction l with
  | nil => intro _ s h; exact h
  | cons f t ih =>
    intro hl s h
    have hf : f = false := by
      cases f
      · rfl
      · exact absurd (List.mem_cons_self true t) hl
    subst hf
    exact ih (fun hm => hl (List.mem_cons_of_mem _ hm)) _ (capStep_silence_keep ms mx s h)

theorem capRunSt_append (ms mx : Nat) : ∀ (l1 l2 : List Bool) (s : CapState),
    capRunSt ms mx s (l1 ++ l2)
      = ((capRunSt ms mx (capRunSt ms mx s l1).1 l2).1,
         (capRunSt ms mx s l1).2 ++ (capRunSt ms mx (capRunSt ms mx s l1).1 l2).2) := by
  intro l1
  induction l1 with
  | nil => intro l2 s; simp [capRunSt]
  | cons f t ih => intro l2 s; simp [capRunSt, ih]

theorem capStep_silence_inert (ms mx : Nat) (s : CapState)
    (hd : s.vad.speechDetected = false) (h0 : s.silenceFrames = 0) :
    capStep ms mx s false
      = ({ vad := vadStep ms s.vad false, silenceFrames := 0 }, false) := by
  have hsd : (vadStep ms s.vad false).speechDetected = false := by simp [vadStep, hd]
  simp [capStep, capSilenceCount, hsd, h0, Nat.not_lt_zero]

theorem capRunSt_inert (ms mx : Nat) : ∀ (l : List Bool), true ∉ l →
    ∀ s : CapState, s.vad.speechDetected = false → s.silenceFrames = 0 →
      ((capRunSt ms mx s l).1).silenceFrames = 0
      ∧ (((capRunSt ms mx s l).1).vad).speechDetected = false
      ∧ ∀ c ∈ (capRunSt ms mx s l).2, c = false := by
  intro l
  induction l with
  | nil =>
    intro _ s hd h0
    exact ⟨h0, hd, by intro c hc; simp [capRunSt] at hc⟩
  | cons f t ih =>
    intro hl s hd h0
    have hf : f = false := by
      cases f
      · rfl
      · exact absurd (List.mem_cons_self true t) hl
    subst hf
    have hstep := capStep_silence_inert ms mx s hd h0
    have hd2 : (vadStep ms s.vad false).speechDetected = false := by simp [vadStep, hd]
    obtain ⟨a, b, c⟩ := ih (fun hm => hl (List.mem_cons_of_mem _ hm))
      { vad := vadStep ms s.vad false, silenceFrames := 0 } hd2 rfl
    refine ⟨?_, ?_, ?_⟩
    · show ((capRunSt ms mx (capStep ms mx s false).1 t).1).silenceFrames = 0
      rw [hstep]
      exact a
    · show (((capRunSt ms mx (capStep ms mx s false).1 t).1).vad).speechDetected = false
      rw [hstep]
      exact b
    · intro x hx
      have hsh : (capRunSt ms mx s (false :: t)).2
          = (capStep ms mx s false).2 :: (capRunSt ms mx (capStep ms mx s false).1 t).2 := rfl
      rw [hsh, hstep] at hx
      rcases List.mem_cons.mp hx with h1 | h2
      · exact h1
      · exact c x h2

/-- C5: the capture loop never fires the end-of-speech (utterance-close)
callback without speech detection having been armed first.  Whenever the
close flag at the step processing frame `f` after prefix `l1` is raised, a
speech-classified frame occurred strictly earlier (`true ∈ l1`), the VAD
armed flag was set at that point, the closing frame itself is silence, and
the run on the whole sequence decomposes so that this flag is exactly the
close event emitted at position `l1.length` of the run. -/
theorem segmenterNoCloseWithoutOpen (ms mx : Nat) (l1 l2 : List Bool) (f : Bool)
    (hclose : (capStep ms mx (capRunSt ms mx CapState.init l1).1 f).2 = true) :
    true ∈ l1
    ∧ (((capRunSt ms mx CapState.init l1).1).vad).speechDetected = true
    ∧ f = false
    ∧ (capRun ms mx (l1 ++ f :: l2)).2
        = (capRunSt ms mx CapState.init l1).2
          ++ (capStep ms mx (capRunSt ms mx CapState.init l1).1 f).2
            :: (capRunSt ms mx (capStep ms mx (capRunSt ms mx CapState.init l1).1 f).1 l2).2 := by
  have hle : ((capRunSt ms mx CapState.init l1).1).silenceFrames ≤ mx :=
    capRunSt_silence_le ms mx l1 CapState.init (Nat.zero_le mx)
  obtain ⟨hf, hd⟩ := capStep_close ms mx _ f hle hclose
  refine ⟨?_, hd, hf, ?_⟩
  · by_contra hnot
    have hkeep := capRunSt_keep_undetected ms mx l1 hnot CapState.init rfl
    rw [hkeep] at hd
    cases hd
  · show (capRunSt ms mx CapState.init (l1 ++ f :: l2)).2 = _
    rw [capRunSt_append]
    rfl

/-- C5 witness: with one speech frame arming a 1-frame threshold, two silence
frames exceed a 1-frame timeout and the close at step 2 is preceded by the
speech frame at step 0. -/
theorem segmenterNoCloseWithoutOpen_witness :
    (capStep 1 1 (capRunSt 1 1 CapState.init [true, false]).1 false).2 = true
    ∧ true ∈ [true, false]
    ∧ (((capRunSt 1 1 CapState.init [true, false]).1).vad).speechDetected = true :=
  ⟨by decide, (segmenterNoCloseWithoutOpen 1 1 [true, false] [false] false (by decide)).1,
    (segmenterNoCloseWithoutOpen 1 1 [true, false] [false] false (by decide)).2.1⟩

/-- C6: pre-speech silence is inert.  On a silence-only frame sequence the
capture loop's close-detection counter never advances from zero, no close
callback ever fires, the VAD armed flag stays down, and `is_silence_timeout`
stays false. -/
theorem preSpeechSilenceInert (ms mx : Nat) (l : List Bool) (h : true ∉ l) :
    ((capRun ms mx l).1).silenceFrames = 0
    ∧ (∀ c ∈ (capRun ms mx l).2, c = false)
    ∧ (vadRun ms l).speechDetected = false
    ∧ isSilenceTimeout (vadRun ms l) mx = false := by
  obtain ⟨a, -, c⟩ := capRunSt_inert ms mx l h CapState.init rfl rfl
  have hv : (vadRun ms l).speechDetected = false :=
    vadFold_undetected ms l VADState.init h rfl
  exact ⟨a, c, hv, by simp [isSilenceTimeout, hv]⟩

/-- C6 witness: three silence frames with the default 5-frame speech
threshold leave the close counter at zero and the timeout test false. -/
theorem preSpeechSilenceInert_witness :
    (true ∉ [false, false, false])
    ∧ ((capRun 5 30 [false, false, false]).1).silenceFrames = 0
    ∧ isSilenceTimeout (vadRun 5 [false, false, false]) 30 = false :=
  ⟨by decide, (preSpeechSilenceInert 5 30 [false, false, false] (by decide)).1,
    (preSpeechSilenceInert 5 30 [false, false, false] (by decide)).2.2.2⟩

theorem get_append_mem_left {α : Type} (l1 l2 : List α) :
    ∀ (i : Nat) (hi : i < (l1 ++ l2).length), i < l1.length →
      (l1 ++ l2).get ⟨i, hi⟩ ∈ l1 := by
  induction l1 with
  | nil => intro i hi h; exact absurd h (Nat.not_lt_zero i)
  | cons a t ih =>
    intro i hi h
    cases i with
    | zero => exact List.mem_cons_self a t
    | succ n =>
      have hn : n < t.length := Nat.lt_of_succ_lt_succ h
      have hni : n < (t ++ l2).length := by
        simp only [List.length_append]
        omega
      exact List.mem_cons_of_mem a (ih n hni hn)

theorem get_append_mem_right {α : Type} (l1 l2 : List α) :
    ∀ (i : Nat) (hi : i < (l1 ++ l2).length), l1.length ≤ i →
      (l1 ++ l2).get ⟨i, hi⟩ ∈ l2 := by
  induction l1 with
  | nil => intro i hi _; exact List.get_mem l2 i hi
  | cons a t ih =>
    intro i hi h
    cases i with
    | zero => exact absurd h (by simp)
    | succ n =>
      have hni : n < (t ++ l2).length := by
        simp only [List.cons_append, List.length_cons] at hi
        omega
      exact ih n hni (Nat.le_of_succ_le_succ h)

theorem eventsOrdered_noQ (p q : PAEvent → Bool) (l : List PAEvent)
    (h : ∀ e ∈ l, q e = false) : eventsOrdered p q l := by
  intro i j hi hj hp hq
  have hf := h _ (List.get_mem l j hj)
  rw [hq] at hf
  cases hf

theorem eventsOrdered_parts (p q : PAEvent → Bool) (l1 l2 : List PAEvent)
    (h1 : ∀ e ∈ l2, p e = false) (h2 : ∀ e ∈ l1, q e = false) :
    eventsOrdered p q (l1 ++ l2) := by
  intro i j hi hj hp hq
  have hil : i < l1.length := by
    by_contra hcon
    push_neg at hcon
    have hf := h1 _ (get_append_mem_right l1 l2 i hi hcon)
    rw [hp] at hf
    cases hf
  have hjl : l1.length ≤ j := by
    by_contra hcon
    push_neg at hcon
    have hf := h2 _ (get_append_mem_left l1 l2 j hj hcon)
    rw [hq] at hf
    cases hf
  omega

theorem llmStreamTail_flags (hcv : Bool) (ut it cp : String) :
    ∀ e ∈ llmStreamTail hcv ut it cp,
      PAEvent.isUser e = false ∧ PAEvent.isGen e = false ∧ PAEvent.isOut e = false := by
  intro e he
  unfold llmStreamTail at he
  rcases List.mem_append.mp he with h1 | h2
  · split at h1
    · have := List.mem_singleton.mp h1
      subst this
      exact ⟨rfl, rfl, rfl⟩
    · cases h1
  · split at h2
    · have := List.mem_singleton.mp h2
      subst this
      exact ⟨rfl, rfl, rfl⟩
    · cases h2

theorem llmStreamTail_assistantMem (hcv : Bool) (ut it cp : String)
    (hcp : cp ≠ "") (hc : hcv = true) :
    PAEvent.assistantAppend cp ∈ llmStreamTail hcv ut it cp := by
  unfold llmStreamTail
  refine List.mem_append.mpr (Or.inl ?_)
  rw [if_pos ⟨hcp, hc⟩]
  exact List.mem_singleton_self _

theorem processLLMStream_flags (tr : String → String) (hcv : Bool) (ut : String)
    (chunks : List String) :
    ∀ e ∈ processLLMStream tr hcv ut chunks,
      PAEvent.isUser e = false ∧ PAEvent.isGen e = false := by
  intro e he
  unfold processLLMStream at he
  rcases List.mem_append.mp he with h1 | h2
  · obtain ⟨a, -, rfl⟩ := List.mem_map.mp h1
    exact ⟨rfl, rfl⟩
  · have hf := llmStreamTail_flags _ _ _ _ _ h2
    exact ⟨hf.1, hf.2.1⟩

/-- C3: tiering heuristic on the fully drained OMEGA-1 text of a non-empty
transcript turn.  A word count within 1..25 accepts the fast path (OMEGA-2 is
never issued and the accepted text is synthesized); a count of 0 or above 25
always issues the tool-enabled OMEGA-2 command; in particular the empty
OMEGA-1 result always escalates. -/
theorem tieredGenerationHeuristic (env : PAEnv) (h : pyStrip env.finalText ≠ "") :
    (0 < wordCount (String.join env.quickChunks) ∧
        wordCount (String.join env.quickChunks) ≤ 25 →
      PAEvent.genCommand true ∉ (processAudio env).events
      ∧ (processAudio env).ttsTexts = [String.join env.quickChunks])
    ∧ ((wordCount (String.join env.quickChunks) = 0 ∨
        25 < wordCount (String.join env.quickChunks)) →
      PAEvent.genCommand true ∈ (processAudio env).events)
    ∧ (String.join env.quickChunks = "" →
      PAEvent.genCommand true ∈ (processAudio env).events) := by
  unfold processAudio
  rw [if_neg h]
  by_cases hfast : 0 < wordCount (String.join env.quickChunks) ∧
      wordCount (String.join env.quickChunks) ≤ 25
  · rw [if_pos hfast]
    refine ⟨fun _ => ⟨?_, rfl⟩, fun hcon => ?_, fun hjoin => ?_⟩
    · intro hmem
      replace hmem : PAEvent.genCommand true ∈ userEvents env
          ++ [PAEvent.genCommand false,
              PAEvent.ttsCommand [String.join env.quickChunks]] := hmem
      rcases List.mem_append.mp hmem with h1 | h2
      · unfold userEvents at h1
        split at h1
        · have := List.mem_singleton.mp h1
          cases this
        · cases h1
      · simp at h2
    · exfalso
      obtain ⟨a, b⟩ := hfast
      rcases hcon with h0 | h25 <;> omega
    · exfalso
      obtain ⟨a, -⟩ := hfast
      rw [hjoin] at a
      have h0 : wordCount "" = 0 := by decide
      omega
  · rw [if_neg hfast]
    refine ⟨fun hcon => absurd hcon hfast, fun _ => ?_, fun _ => ?_⟩
    all_goals
      exact List.mem_append.mpr (Or.inl (List.mem_append.mpr (Or.inr (by simp))))

/-- C3 witness: a 1-word OMEGA-1 answer on a greeting turn is accepted and
OMEGA-2 is never issued. -/
theorem tieredGenerationHeuristic_witness :
    pyStrip envShortTurn.finalText ≠ ""
    ∧ PAEvent.genCommand true ∉ (processAudio envShortTurn).events
    ∧ (processAudio envShortTurn).ttsTexts = [String.join envShortTurn.quickChunks] :=
  ⟨by decide, ((tieredGenerationHeuristic envShortTurn (by decide)).1 (by decide)).1,
    ((tieredGenerationHeuristic envShortTurn (by decide)).1 (by decide)).2⟩

/-- C8: a final transcript that is empty after stripping short-circuits the
turn: the fixed fallback text is returned and synthesized, and the trace
holds only the fallback synthesis — no generation command of either tier is
issued and no user message is appended. -/
theorem emptyTranscriptShortCircuit (env : PAEnv) (h : pyStrip env.finalText = "") :
    (processAudio env).returnedText = fallbackText
    ∧ (processAudio env).ttsTexts = [fallbackText]
    ∧ (processAudio env).events = [PAEvent.ttsCommand [fallbackText]]
    ∧ (∀ b, PAEvent.genCommand b ∉ (processAudio env).events)
    ∧ (∀ t, PAEvent.userAppend t ∉ (processAudio env).events) := by
  unfold processAudio
  rw [if_pos h]
  refine ⟨rfl, rfl, rfl, ?_, ?_⟩
  · intro b hmem
    simp [processAudioFallback] at hmem
  · intro t hmem
    simp [processAudioFallback] at hmem

/-- C8 witness: a whitespace-only transcript yields the fallback turn. -/
theorem emptyTranscriptShortCircuit_witness :
    pyStrip envSilentTurn.finalText = ""
    ∧ (processAudio envSilentTurn).returnedText = fallbackText
    ∧ (processAudio envSilentTurn).events = [PAEvent.ttsCommand [fallbackText]] :=
  ⟨by decide, (emptyTranscriptShortCircuit envSilentTurn (by decide)).1,
    (emptyTranscriptShortCircuit envSilentTurn (by decide)).2.2.1⟩

/-- C9 counterexample: a completed fast-path turn (non-empty transcript,
2-word OMEGA-1 answer, conversation set) appends no assistant message at
all — the response text never reaches the history, refuting the clause that
the assistant append occurs for every completed turn including the fast
OMEGA-1 path. -/
theorem fastPathSkipsAssistantAppend :
    pyStrip envFastTurn.finalText ≠ ""
    ∧ 0 < wordCount (String.join envFastTurn.quickChunks)
    ∧ wordCount (String.join envFastTurn.quickChunks) ≤ 25
    ∧ PAEvent.assistantAppend (String.join envFastTurn.quickChunks)
        ∉ (processAudio envFastTurn).events := by
  decide

/-- C9 (amended): in a turn with a conversation set and a non-empty
transcript, the user message is appended strictly before any generation
command; every assistant append comes strictly after every response-stream
output (full assembly); on the escalated path with non-empty assembled text
the assistant message holding that text is appended; the fast OMEGA-1 path
appends no assistant message at all. -/
theorem conversationUpdateOrdering (env : PAEnv) (hc : env.hasConv = true)
    (ht : pyStrip env.finalText ≠ "") :
    eventsOrdered PAEvent.isUser PAEvent.isGen (processAudio env).events
    ∧ eventsOrdered PAEvent.isOut PAEvent.isAsst (processAudio env).events
    ∧ PAEvent.userAppend env.finalText ∈ (processAudio env).events
    ∧ (¬(0 < wordCount (String.join env.quickChunks) ∧
          wordCount (String.join env.quickChunks) ≤ 25) →
        String.join (env.fullChunks.map (processOneChunk env.toolResult)) ≠ "" →
        PAEvent.assistantAppend
            (String.join (env.fullChunks.map (processOneChunk env.toolResult)))
          ∈ (processAudio env).events)
    ∧ (0 < wordCount (String.join env.quickChunks) ∧
        wordCount (String.join env.quickChunks) ≤ 25 →
        ∀ t, PAEvent.assistantAppend t ∉ (processAudio env).events) := by
  have hue : userEvents env = [PAEvent.userAppend env.finalText] := by
    simp [userEvents, hc]
  unfold processAudio
  rw [if_neg ht]
  by_cases hfast : 0 < wordCount (String.join env.quickChunks) ∧
      wordCount (String.join env.quickChunks) ≤ 25
  · rw [if_pos hfast]
    have hev : (processAudioFast env).events
        = [PAEvent.userAppend env.finalText]
          ++ [PAEvent.genCommand false,
              PAEvent.ttsCommand [String.join env.quickChunks]] := by
      show userEvents env ++ _ = _
      rw [hue]
    refine ⟨?_, ?_, ?_, fun hcon => absurd hfast hcon, fun _ t hmem => ?_⟩
    · rw [hev]
      apply eventsOrdered_parts
      · intro e he
        simp only [List.mem_cons, List.not_mem_nil, or_false] at he
        rcases he with rfl | rfl <;> rfl
      · intro e he
        have := List.mem_singleton.mp he
        subst this
        rfl
    · rw [hev]
      apply eventsOrdered_noQ
      intro e he
      simp only [List.cons_append, List.nil_append, List.mem_cons,
        List.not_mem_nil, or_false] at he
      rcases he with rfl | rfl | rfl <;> rfl
    · rw [hev]
      exact List.mem_append.mpr (Or.inl (List.mem_singleton_self _))
    · rw [hev] at hmem
      simp at hmem
  · rw [if_neg hfast]
    have hev : (processAudioEscalated env).events
        = [PAEvent.userAppend env.finalText]
          ++ ([PAEvent.genCommand false, PAEvent.genCommand true,
              PAEvent.ttsCommand (env.fullChunks.map (processOneChunk env.toolResult))]
            ++ processLLMStream env.toolResult env.hasConv env.finalText env.fullChunks) := by
      show userEvents env ++ _ ++ _ = _
      rw [hue, List.append_assoc]
    have hev2 : (processAudioEscalated env).events
        = ([PAEvent.userAppend env.finalText]
            ++ ([PAEvent.genCommand false, PAEvent.genCommand true,
                PAEvent.ttsCommand (env.fullChunks.map (processOneChunk env.toolResult))]
              ++ ((env.fullChunks.map (processOneChunk env.toolResult)).map PAEvent.streamOut)))
          ++ llmStreamTail env.hasConv env.finalText
              (if env.fullChunks.any (fun c => c.startsWith fcMarker)
                then "FUNCTION_CALL" else "INFO")
              (String.join (env.fullChunks.map (processOneChunk env.toolResult))) := by
      show userEvents env ++ _ ++ processLLMStream _ _ _ _ = _
      rw [hue]
      unfold processLLMStream
      simp [List.append_assoc]
    refine ⟨?_, ?_, ?_, fun _ hcp => ?_, fun hcon => absurd hcon hfast⟩
    · rw [hev]
      apply eventsOrdered_parts
      · intro e he
        rcases List.mem_append.mp he with h1 | h2
        · simp only [List.mem_cons, List.not_mem_nil, or_false] at h1
          rcases h1 with rfl | rfl | rfl <;> rfl
        · exact (processLLMStream_flags _ _ _ _ _ h2).1
      · intro e he
        have := List.mem_singleton.mp he
        subst this
        rfl
    · rw [hev2]
      apply eventsOrdered_parts
      · intro e he
        exact (llmStreamTail_flags _ _ _ _ _ he).2.2
      · intro e he
        rcases List.mem_append.mp he with h1 | h2
        · have := List.mem_singleton.mp h1
          subst this
          rfl
        · rcases List.mem_append.mp h2 with h3 | h4
          · simp only [List.mem_cons, List.not_mem_nil, or_false] at h3
            rcases h3 with rfl | rfl | rfl <;> rfl
          · obtain ⟨a, -, rfl⟩ := List.mem_map.mp h4
            rfl
    · rw [hev]
      exact List.mem_append.mpr (Or.inl (List.mem_singleton_self _))
    · rw [hev]
      refine List.mem_append.mpr (Or.inr (List.mem_append.mpr (Or.inr ?_)))
      unfold processLLMStream
      refine List.mem_append.mpr (Or.inr ?_)
      exact llmStreamTail_assistantMem _ _ _ _ hcp hc

/-- C9 amended-claim witness: an escalated turn with conversation set keeps
the user message in the trace and appends the fully assembled response. -/
theorem conversationUpdateOrdering_witness :
    pyStrip envEscalatedTurn.finalText ≠ ""
    ∧ PAEvent.userAppend envEscalatedTurn.finalText ∈ (processAudio envEscalatedTurn).events
    ∧ PAEvent.assistantAppend
        (String.join (envEscalatedTurn.fullChunks.map (processOneChunk envEscalatedTurn.toolResult)))
      ∈ (processAudio envEscalatedTurn).events :=
  ⟨by decide, (conversationUpdateOrdering envEscalatedTurn rfl (by decide)).2.2.1,
    (conversationUpdateOrdering envEscalatedTurn rfl (by decide)).2.2.2.1
      (by decide) (by decide)⟩

end HotelKiosk
